import Mathlib

/-!
Shallow embedding of the Bhojpur Application role-based permission
evaluator (`pkg/roles/permission.go`) and the resource permission wrapper
(`pkg/resource/resource.go`), with theorems settling the frozen claims
about its allow/deny decision algorithm, builder operations and merge.

Modelling conventions:
* Go's `PermissionMode` is a string type; every mode the code or the claims
  ever mention is one of the five declared constants, so the embedding uses
  a closed inductive with those five constructors as the key type of the
  role maps.
* A Go `map[PermissionMode][]string` is embedded as `GoMap`: either the Go
  `nil` map (reads yield the zero value, writes fault) or an initialized
  map given by one `Option (List RoleName)` entry per mode, `none` meaning
  the key is absent.  A key present with a `nil` slice (producible only by
  `Concat` appending an empty entry) is conflated with a key present with
  an empty slice: the two are distinguished in Go only by the
  `!= nil` test in `HasPermission`, and both branches of that test yield
  the same result on an empty entry (`includeRoles` of an empty list is
  false), so the conflation is observationally faithful.
* Pointers (`*Permission`, `*Role`, `*Resource`) are embedded as `Option`.
* `Allow`/`Deny` write to a map and hence fault on a Go `nil` map; they
  return `Option Permission`, `none` marking the runtime fault.
-/

/-- A role name is an opaque, case-sensitive string (`[]string` entries). -/
abbrev RoleName := String

/-- Modelled from the spec: the reserved wildcard role-name constant
*Anyone* from the role registry file, which is absent from `src/`.  The
code only ever compares it by string equality, so its concrete spelling is
immaterial to every claim; the conventional value is used here. -/
def Anyone : RoleName := "*"

/-- Modelled from the spec: the scope marker type (`Role` in the registry
file, absent from `src/`); a policy's `Role` field points to one of
these.  Only its identity matters to the claims. -/
inductive RoleScope where
  | global : RoleScope
  | named : String → RoleScope
deriving DecidableEq, Repr

/-- Modelled from the spec: the reserved *Global* default scope marker. -/
def Global : RoleScope := RoleScope.global

/-- `PermissionMode` permission mode: the five declared constants
`Create`, `Read`, `Update`, `Delete`, `CRUD`. -/
inductive PermissionMode where
  | create : PermissionMode
  | read : PermissionMode
  | update : PermissionMode
  | delete : PermissionMode
  | crud : PermissionMode
deriving DecidableEq, Repr

/-- The entries of an initialized `map[PermissionMode][]string`: one
optional role list per key; `none` = key absent. -/
structure RoleMap where
  create : Option (List RoleName)
  read : Option (List RoleName)
  update : Option (List RoleName)
  delete : Option (List RoleName)
  crud : Option (List RoleName)
deriving DecidableEq, Repr

/-- The map with no keys (`map[PermissionMode][]string{}`). -/
def RoleMap.empty : RoleMap := ⟨none, none, none, none, none⟩

/-- Map lookup `m[mode]` on an initialized map. -/
def RoleMap.get (m : RoleMap) : PermissionMode → Option (List RoleName)
  | .create => m.create
  | .read => m.read
  | .update => m.update
  | .delete => m.delete
  | .crud => m.crud

/-- Map update `m[mode] = v` on an initialized map. -/
def RoleMap.set (m : RoleMap) (mode : PermissionMode) (v : Option (List RoleName)) : RoleMap :=
  match mode with
  | .create => { m with create := v }
  | .read => { m with read := v }
  | .update => { m with update := v }
  | .delete => { m with delete := v }
  | .crud => { m with crud := v }

/-- `len(m) == 0` on an initialized map: no key is present. -/
def RoleMap.isEmpty (m : RoleMap) : Bool :=
  m.create.isNone && m.read.isNone && m.update.isNone && m.delete.isNone && m.crud.isNone

/-- A Go `map[PermissionMode][]string` value: the `nil` map, or an
initialized map. -/
inductive GoMap where
  | nil : GoMap
  | mk : RoleMap → GoMap
deriving DecidableEq, Repr

/-- Map lookup `m[mode]`: on the `nil` map every key reads as absent. -/
def GoMap.get : GoMap → PermissionMode → Option (List RoleName)
  | .nil, _ => none
  | .mk m, mode => m.get mode

/-- `len(m) == 0`: the `nil` map and the keyless map are both empty. -/
def GoMap.isEmpty : GoMap → Bool
  | .nil => true
  | .mk m => m.isEmpty

/-- The builder write `m[mode] = append(m[mode] or fresh empty, roles...)`
performed by `Allow`/`Deny`: faults (`none`) on the `nil` map. -/
def GoMap.appendSet : GoMap → PermissionMode → List RoleName → Option GoMap
  | .nil, _, _ => none
  | .mk m, mode, roles => some (.mk (m.set mode (some ((m.get mode).getD [] ++ roles))))

/-- `Permission`: a struct containing permission definitions
(`Role *Role; AllowedRoles, DeniedRoles map[PermissionMode][]string`). -/
structure Permission where
  Role : Option RoleScope
  AllowedRoles : GoMap
  DeniedRoles : GoMap
deriving DecidableEq, Repr

/-- `includeRoles(roles, values)`: true iff some entry of `roles` (a
policy role list) is the wildcard `Anyone`, or literally equals some entry
of `values` (the resolved actor role names). -/
def includeRoles (roles values : List RoleName) : Bool :=
  roles.any (fun role => role == Anyone || values.any (fun value => value == role))

/-- One `appendRoles` entry step inside `Concat`:
`result[mode] = append(result[mode], roles...)` for a key `mode` present
in the operand (`src = some roles`), identity for an absent key. -/
def concatEntry (acc src : Option (List RoleName)) : Option (List RoleName) :=
  match src with
  | none => acc
  | some roles => some (acc.getD [] ++ roles)

/-- The `appendRoles` loop of `Concat` applied to one of the result's
maps: every key of the operand map `src` is appended onto `acc`
(key order is irrelevant, the keys are independent). -/
def concatMap (acc : RoleMap) (src : GoMap) : RoleMap :=
  ⟨concatEntry acc.create (src.get .create),
   concatEntry acc.read (src.get .read),
   concatEntry acc.update (src.get .update),
   concatEntry acc.delete (src.get .delete),
   concatEntry acc.crud (src.get .crud)⟩

/-- The scope assignment done by one `appendRoles(p)` call:
`result.Role = p.Role` when `p != nil`, untouched otherwise. -/
def scopeStep (acc : Option RoleScope) : Option Permission → Option RoleScope
  | none => acc
  | some p => p.Role

/-- The `AllowedRoles` map of a possibly-nil `*Permission` (ranging over a
nil operand's maps iterates zero times, like ranging over the nil map). -/
def allowedOf : Option Permission → GoMap
  | none => GoMap.nil
  | some p => p.AllowedRoles

/-- The `DeniedRoles` map of a possibly-nil `*Permission`. -/
def deniedOf : Option Permission → GoMap
  | none => GoMap.nil
  | some p => p.DeniedRoles

/-- `Concat`: concat two permissions into a new one.  The result starts as
`{Global, fresh empty map, fresh empty map}`, then `appendRoles` runs on
the argument (`newPermission`) and then on the receiver (`permission`);
a nil operand on either side contributes nothing. -/
def Permission.Concat (permission newPermission : Option Permission) : Permission :=
  { Role := scopeStep (scopeStep (some Global) newPermission) permission
    AllowedRoles := GoMap.mk
      (concatMap (concatMap RoleMap.empty (allowedOf newPermission)) (allowedOf permission))
    DeniedRoles := GoMap.mk
      (concatMap (concatMap RoleMap.empty (deniedOf newPermission)) (deniedOf permission)) }

/-- The non-`CRUD` arm of `Allow`: ensure the key exists, append the role
names; faults when `AllowedRoles` is the nil map. -/
def Permission.allowOne (permission : Permission) (mode : PermissionMode)
    (roles : List RoleName) : Option Permission :=
  (permission.AllowedRoles.appendSet mode roles).map
    (fun m => { permission with AllowedRoles := m })

/-- `Allow` allows permission mode for roles; `CRUD` expands recursively to
`Allow(Create).Allow(Update).Allow(Read).Allow(Delete)`. -/
def Permission.Allow (permission : Permission) (mode : PermissionMode)
    (roles : List RoleName) : Option Permission :=
  match mode with
  | .crud =>
    (((permission.allowOne .create roles).bind (fun p => p.allowOne .update roles)).bind
      (fun p => p.allowOne .read roles)).bind (fun p => p.allowOne .delete roles)
  | m => permission.allowOne m roles

/-- The non-`CRUD` arm of `Deny`: ensure the key exists, append the role
names; faults when `DeniedRoles` is the nil map. -/
def Permission.denyOne (permission : Permission) (mode : PermissionMode)
    (roles : List RoleName) : Option Permission :=
  (permission.DeniedRoles.appendSet mode roles).map
    (fun m => { permission with DeniedRoles := m })

/-- `Deny` denies permission mode for roles; `CRUD` expands recursively to
`Deny(Create).Deny(Update).Deny(Read).Deny(Delete)`. -/
def Permission.Deny (permission : Permission) (mode : PermissionMode)
    (roles : List RoleName) : Option Permission :=
  match mode with
  | .crud =>
    (((permission.denyOne .create roles).bind (fun p => p.denyOne .update roles)).bind
      (fun p => p.denyOne .read roles)).bind (fun p => p.denyOne .delete roles)
  | m => permission.denyOne m roles

/-- An actor value passed variadically to `HasPermission`: the dynamic
type switch distinguishes a plain role-name string, a value implementing
the `Roler` capability (embedded by the role-name list its `GetRoles`
returns — the interface's file is absent from `src/`, its contract is the
spec's `RoleProvider`), and any other shape. -/
inductive Actor where
  | name : RoleName → Actor
  | roler : List RoleName → Actor
  | other : Actor
deriving DecidableEq, Repr

/-- Step 1 of `HasPermission`: resolve the actor list to a flat role-name
list, left to right; the first actor of an unrecognized shape aborts
resolution (`none` — the Go code prints a diagnostic and returns false). -/
def resolveRoleNames : List Actor → Option (List RoleName)
  | [] => some []
  | Actor.name r :: rest => (resolveRoleNames rest).map (fun l => r :: l)
  | Actor.roler rs :: rest => (resolveRoleNames rest).map (fun l => rs ++ l)
  | Actor.other :: _ => none

/-- `HasPermission`: check whether roles have permission for a mode.
Resolution failure is fail-closed false; then the deny check (guarded by
`len(DeniedRoles) != 0` and key presence) short-circuits to false; then an
entirely empty `AllowedRoles` map means default-allow true; then the
allow entry for the mode decides, an absent entry meaning false. -/
def Permission.HasPermission (permission : Permission) (mode : PermissionMode)
    (actors : List Actor) : Bool :=
  match resolveRoleNames actors with
  | none => false
  | some roleNames =>
    let denied : Bool :=
      if permission.DeniedRoles.isEmpty then false
      else
        match permission.DeniedRoles.get mode with
        | some dl => includeRoles dl roleNames
        | none => false
    if denied then false
    else if permission.AllowedRoles.isEmpty then true
    else
      match permission.AllowedRoles.get mode with
      | some al => includeRoles al roleNames
      | none => false

/-- Modelled from the spec: the acting context (`appsvr.Context`, from the
external engine package, absent from `src/`) supplies the acting role
names; only its `Roles` list is consumed by the resource wrapper. -/
structure Context where
  Roles : List RoleName
deriving DecidableEq, Repr

/-- `Resource`: the embedded fragment of the Bhojpur Application resource
struct — its name and its optional permission policy.  The reflection,
handler and metadata fields are never consulted by the permission
wrapper and are outside the claims. -/
structure Resource where
  Name : String
  Permission : Option Permission

/-- `Resource.HasPermission`: check permission of a resource.  A nil
resource pointer or a nil `Permission` field permits everything;
otherwise each role of the context is passed as a plain role-name actor
to the policy's `HasPermission`. -/
def Resource.HasPermission (res : Option Resource) (mode : PermissionMode)
    (context : Context) : Bool :=
  match res with
  | none => true
  | some r =>
    match r.Permission with
    | none => true
    | some permission => permission.HasPermission mode (context.Roles.map Actor.name)

/-- A policy denying `Delete` to role "intern", with no allow rules
(the first scenario of spec section 8). -/
def pDenyInternDelete : Permission :=
  { Role := some Global, AllowedRoles := GoMap.mk RoleMap.empty,
    DeniedRoles := GoMap.mk (RoleMap.empty.set .delete (some ["intern"])) }

/-- A policy allowing `Read` to role "viewer" only
(the second scenario of spec section 8). -/
def pAllowViewerRead : Permission :=
  { Role := some Global, AllowedRoles := GoMap.mk (RoleMap.empty.set .read (some ["viewer"])),
    DeniedRoles := GoMap.mk RoleMap.empty }

/-- A policy whose allow list for `Read` names only "editor" — it contains
neither the wildcard nor the probing actor's role names. -/
def pAllowEditorRead : Permission :=
  { Role := some Global, AllowedRoles := GoMap.mk (RoleMap.empty.set .read (some ["editor"])),
    DeniedRoles := GoMap.mk RoleMap.empty }

/-- A policy whose allow list for `Read` is the wildcard `Anyone`. -/
def pAnyoneRead : Permission :=
  { Role := some Global, AllowedRoles := GoMap.mk (RoleMap.empty.set .read (some [Anyone])),
    DeniedRoles := GoMap.mk RoleMap.empty }

/-- A policy with both maps initialized and keyless (the state `Concat`
of two absent operands produces). -/
def pEmptyInit : Permission :=
  { Role := some Global, AllowedRoles := GoMap.mk RoleMap.empty,
    DeniedRoles := GoMap.mk RoleMap.empty }

/-- The policy `pEmptyInit.Allow Create ["editor"]` produces. -/
def qAllowEditorCreate : Permission :=
  { Role := some Global, AllowedRoles := GoMap.mk (RoleMap.empty.set .create (some ["editor"])),
    DeniedRoles := GoMap.mk RoleMap.empty }

/-- A resource protected by `pAllowViewerRead`. -/
def resViewer : Resource := { Name := "Order", Permission := some pAllowViewerRead }

/-! ## Shared lemmas about the embedded operations -/

/-- The decision an entry of one of the maps contributes for given actor
role names: absent entry contributes nothing, present entry contributes
its `includeRoles` test. -/
def entryHit (e : Option (List RoleName)) (names : List RoleName) : Bool :=
  match e with
  | some l => includeRoles l names
  | none => false

theorem includeRoles_iff (roles values : List RoleName) :
    includeRoles roles values = true ↔
      ∃ role, role ∈ roles ∧ (role = Anyone ∨ role ∈ values) := by
  simp only [includeRoles, List.any_eq_true, Bool.or_eq_true, beq_iff_eq]
  constructor
  · rintro ⟨role, hmem, h | h⟩
    · exact ⟨role, hmem, Or.inl h⟩
    · obtain ⟨value, hv, hveq⟩ := h
      exact ⟨role, hmem, Or.inr (hveq ▸ hv)⟩
  · rintro ⟨role, hmem, h | h⟩
    · exact ⟨role, hmem, Or.inl h⟩
    · exact ⟨role, hmem, Or.inr ⟨role, h, rfl⟩⟩

theorem GoMap.get_eq_none_of_isEmpty (g : GoMap) (h : g.isEmpty = true)
    (mode : PermissionMode) : g.get mode = none := by
  cases g with
  | nil => rfl
  | mk m =>
    simp only [GoMap.isEmpty, RoleMap.isEmpty, Bool.and_eq_true,
      Option.isNone_iff_eq_none] at h
    cases mode <;> simp [GoMap.get, RoleMap.get, h.1, h.2]

theorem GoMap.isEmpty_eq_false_of_get_some (g : GoMap) (mode : PermissionMode)
    (l : List RoleName) (h : g.get mode = some l) : g.isEmpty = false := by
  cases hE : g.isEmpty with
  | false => rfl
  | true => rw [GoMap.get_eq_none_of_isEmpty g hE mode] at h; cases h

/-- Evaluation of `HasPermission` once actor resolution has succeeded:
the denied entry must miss, then either the allowed map is entirely empty
or the allowed entry must hit. -/
theorem hasPermission_eq_resolved (p : Permission) (mode : PermissionMode)
    (actors : List Actor) (names : List RoleName)
    (hres : resolveRoleNames actors = some names) :
    p.HasPermission mode actors =
      (!entryHit (p.DeniedRoles.get mode) names
        && (p.AllowedRoles.isEmpty || entryHit (p.AllowedRoles.get mode) names)) := by
  unfold Permission.HasPermission
  rw [hres]
  simp only
  cases hE : p.DeniedRoles.isEmpty with
  | true =>
    rw [GoMap.get_eq_none_of_isEmpty _ hE mode]
    simp only [entryHit, if_true, Bool.not_false, Bool.true_and]
    cases hA : p.AllowedRoles.isEmpty with
    | true => simp [hA]
    | false => cases hal : p.AllowedRoles.get mode <;> simp [entryHit, hA]
  | false =>
    simp only [if_false, Bool.false_eq_true]
    cases hd : p.DeniedRoles.get mode with
    | none =>
      simp only [entryHit, Bool.not_false, Bool.true_and, if_false]
      cases hA : p.AllowedRoles.isEmpty with
      | true => simp [hA]
      | false => cases hal : p.AllowedRoles.get mode <;> simp [entryHit, hA]
    | some dl =>
      simp only [entryHit]
      rcases Bool.eq_false_or_eq_true (includeRoles dl names) with hinc | hinc
      · simp only [hinc, Bool.false_eq_true, if_false, Bool.not_false, Bool.true_and]
        cases hA : p.AllowedRoles.isEmpty with
        | true => simp [hA]
        | false => cases hal : p.AllowedRoles.get mode <;> simp [entryHit, hA]
      · simp [hinc]

/-- A failed actor resolution makes `HasPermission` false. -/
theorem hasPermission_eq_false_of_resolve_none (p : Permission)
    (mode : PermissionMode) (actors : List Actor)
    (hres : resolveRoleNames actors = none) :
    p.HasPermission mode actors = false := by
  unfold Permission.HasPermission
  rw [hres]

theorem resolveRoleNames_eq_none_of_mem_other (actors : List Actor)
    (h : Actor.other ∈ actors) : resolveRoleNames actors = none := by
  induction actors with
  | nil => cases h
  | cons a rest ih =>
    cases a with
    | other => rfl
    | name r =>
      have h' : Actor.other ∈ rest := by cases h with | tail _ h => exact h
      simp [resolveRoleNames, ih h']
    | roler rs =>
      have h' : Actor.other ∈ rest := by cases h with | tail _ h => exact h
      simp [resolveRoleNames, ih h']

theorem concatMap_get (acc : RoleMap) (src : GoMap) (mode : PermissionMode) :
    (concatMap acc src).get mode = concatEntry (acc.get mode) (src.get mode) := by
  cases mode <;> rfl

theorem concat_allowed_get (a b : Option Permission) (mode : PermissionMode) :
    (Permission.Concat a b).AllowedRoles.get mode
      = concatEntry (concatEntry none ((allowedOf b).get mode)) ((allowedOf a).get mode) := by
  show (concatMap (concatMap RoleMap.empty (allowedOf b)) (allowedOf a)).get mode = _
  rw [concatMap_get, concatMap_get]
  cases mode <;> rfl

theorem concat_denied_get (a b : Option Permission) (mode : PermissionMode) :
    (Permission.Concat a b).DeniedRoles.get mode
      = concatEntry (concatEntry none ((deniedOf b).get mode)) ((deniedOf a).get mode) := by
  show (concatMap (concatMap RoleMap.empty (deniedOf b)) (deniedOf a)).get mode = _
  rw [concatMap_get, concatMap_get]
  cases mode <;> rfl

theorem concatEntry_getD (eb ea : Option (List RoleName)) :
    (concatEntry (concatEntry none eb) ea).getD []
      = eb.getD [] ++ ea.getD [] := by
  cases eb <;> cases ea <;> simp [concatEntry]

theorem concatEntry_isSome (eb ea : Option (List RoleName)) :
    (concatEntry (concatEntry none eb) ea).isSome = (eb.isSome || ea.isSome) := by
  cases eb <;> cases ea <;> simp [concatEntry]

theorem concatEntry_none_acc (e : Option (List RoleName)) : concatEntry none e = e := by
  cases e <;> simp [concatEntry]

theorem entryHit_eq_false_of_no_match (e : Option (List RoleName)) (names : List RoleName)
    (h : ∀ dl, e = some dl → includeRoles dl names = false) : entryHit e names = false := by
  cases e with
  | none => rfl
  | some dl => simpa [entryHit] using h dl rfl

theorem RoleMap.get_set_self (m : RoleMap) (mode : PermissionMode)
    (v : Option (List RoleName)) : (m.set mode v).get mode = v := by
  cases mode <;> rfl

theorem Permission.Allow_eq_none_of_nil (p : Permission) (h : p.AllowedRoles = GoMap.nil)
    (mode : PermissionMode) (roles : List RoleName) : p.Allow mode roles = none := by
  cases mode <;> simp [Permission.Allow, Permission.allowOne, GoMap.appendSet, h]

theorem Permission.Allow_isSome_of_mk (p : Permission) (rm : RoleMap)
    (h : p.AllowedRoles = GoMap.mk rm) (mode : PermissionMode) (roles : List RoleName) :
    (p.Allow mode roles).isSome = true := by
  cases mode <;> simp [Permission.Allow, Permission.allowOne, GoMap.appendSet, h]

theorem Permission.Deny_eq_none_of_nil (p : Permission) (h : p.DeniedRoles = GoMap.nil)
    (mode : PermissionMode) (roles : List RoleName) : p.Deny mode roles = none := by
  cases mode <;> simp [Permission.Deny, Permission.denyOne, GoMap.appendSet, h]

theorem Permission.Deny_isSome_of_mk (p : Permission) (rm : RoleMap)
    (h : p.DeniedRoles = GoMap.mk rm) (mode : PermissionMode) (roles : List RoleName) :
    (p.Deny mode roles).isSome = true := by
  cases mode <;> simp [Permission.Deny, Permission.denyOne, GoMap.appendSet, h]

/-! ## Claim theorems -/

/-- C1 counterexample: the claim as stated is false on the code.  For the
policy whose `Read` allow list is `["editor"]` and whose denied map is
empty, the actor list `[Anyone]` resolves, is not denied, the allow list
contains neither `Anyone` nor the actor's role name — and `HasPermission`
returns false, not true: `includeRoles` tests the wildcard only on the
policy's role list (its first argument), never on the actor side. -/
theorem actor_side_anyone_no_wildcard_cex :
    resolveRoleNames [Actor.name Anyone] = some [Anyone]
    ∧ Anyone ∈ [Anyone]
    ∧ pAllowEditorRead.DeniedRoles.isEmpty = true
    ∧ pAllowEditorRead.DeniedRoles.get .read = none
    ∧ pAllowEditorRead.AllowedRoles.get .read = some ["editor"]
    ∧ Anyone ∉ (["editor"] : List RoleName)
    ∧ pAllowEditorRead.HasPermission .read [Actor.name Anyone] = false := by
  refine ⟨rfl, ?_, rfl, rfl, rfl, ?_, ?_⟩ <;> decide

/-- C1 (amended): wildcard short-circuiting lives on the policy side of
`includeRoles`, not the actor side.  For every policy, mode, and
resolvable actor list that is not denied for the mode: if the mode's
allow entry contains `Anyone`, `HasPermission` is true for every actor
list — the actor-side occurrence of `Anyone` has no wildcard effect
(witnessed false by the counterexample above). -/
theorem policy_side_anyone_wildcard_allows
    (p : Permission) (mode : PermissionMode) (actors : List Actor)
    (names al : List RoleName)
    (hres : resolveRoleNames actors = some names)
    (hden : ∀ dl, p.DeniedRoles.get mode = some dl → includeRoles dl names = false)
    (hal : p.AllowedRoles.get mode = some al)
    (hany : Anyone ∈ al) :
    p.HasPermission mode actors = true := by
  have hdE : entryHit (p.DeniedRoles.get mode) names = false :=
    entryHit_eq_false_of_no_match _ _ hden
  have hinc : includeRoles al names = true :=
    (includeRoles_iff al names).mpr ⟨Anyone, hany, Or.inl rfl⟩
  rw [hasPermission_eq_resolved p mode actors names hres, hdE]
  simp [entryHit, hal, hinc]

/-- C1 witness: the policy allowing `Read` to `Anyone` permits an actor
whose sole role name matches nothing literally. -/
theorem policy_side_anyone_wildcard_allows_witness :
    pAnyoneRead.HasPermission .read [Actor.name "nobody"] = true :=
  policy_side_anyone_wildcard_allows pAnyoneRead .read [Actor.name "nobody"]
    ["nobody"] [Anyone] rfl
    (fun dl h => by
      simp [pAnyoneRead, GoMap.get, RoleMap.get, RoleMap.empty] at h)
    rfl (by decide)

/-- C2: with resolvable actors and no denied-entry match for the mode, the
decision is trichotomous on the allowed map: an entirely empty allowed map
default-allows; a non-empty allowed map with no entry for the mode denies
by omission; an entry for the mode decides by exactly the
wildcard-or-exact `includeRoles` test against that entry. -/
theorem allow_map_default_and_allowlist_modes
    (p : Permission) (mode : PermissionMode) (actors : List Actor)
    (names : List RoleName)
    (hres : resolveRoleNames actors = some names)
    (hden : ∀ dl, p.DeniedRoles.get mode = some dl → includeRoles dl names = false) :
    (p.AllowedRoles.isEmpty = true → p.HasPermission mode actors = true)
    ∧ (p.AllowedRoles.isEmpty = false → p.AllowedRoles.get mode = none →
        p.HasPermission mode actors = false)
    ∧ (∀ al, p.AllowedRoles.get mode = some al →
        p.HasPermission mode actors = includeRoles al names) := by
  have hdE : entryHit (p.DeniedRoles.get mode) names = false :=
    entryHit_eq_false_of_no_match _ _ hden
  refine ⟨?_, ?_, ?_⟩
  · intro hA
    rw [hasPermission_eq_resolved p mode actors names hres, hdE, hA]
    simp
  · intro hA hal
    rw [hasPermission_eq_resolved p mode actors names hres, hdE, hA, hal]
    simp [entryHit]
  · intro al hal
    have hA : p.AllowedRoles.isEmpty = false :=
      GoMap.isEmpty_eq_false_of_get_some p.AllowedRoles mode al hal
    rw [hasPermission_eq_resolved p mode actors names hres, hdE, hA, hal]
    simp [entryHit]

/-- C2 witness: the allow-list-mode policy `pAllowViewerRead` decides
`Read` for the actor "viewer" by the `includeRoles` test on its entry. -/
theorem allow_map_default_and_allowlist_modes_witness :
    pAllowViewerRead.HasPermission .read [Actor.name "viewer"]
      = includeRoles ["viewer"] ["viewer"] :=
  (allow_map_default_and_allowlist_modes pAllowViewerRead .read
    [Actor.name "viewer"] ["viewer"] rfl
    (fun dl h => by
      simp [pAllowViewerRead, GoMap.get, RoleMap.get, RoleMap.empty] at h)).2.2
    ["viewer"] rfl

/-- C3: a denied entry for the mode that contains the wildcard `Anyone`,
or any resolved actor role name, forces `HasPermission` false regardless
of the allowed map; in particular `Anyone` in the denied entry denies
every actor list whatsoever. -/
theorem deny_entry_overrides_allow
    (p : Permission) (mode : PermissionMode) (dl : List RoleName)
    (hd : p.DeniedRoles.get mode = some dl) :
    (∀ actors names, resolveRoleNames actors = some names →
      (Anyone ∈ dl ∨ ∃ r, r ∈ names ∧ r ∈ dl) →
      p.HasPermission mode actors = false)
    ∧ (Anyone ∈ dl → ∀ actors, p.HasPermission mode actors = false) := by
  have key : ∀ names : List RoleName, (Anyone ∈ dl ∨ ∃ r, r ∈ names ∧ r ∈ dl) →
      includeRoles dl names = true := by
    intro names h
    rw [includeRoles_iff]
    rcases h with h | ⟨r, hr, hrd⟩
    · exact ⟨Anyone, h, Or.inl rfl⟩
    · exact ⟨r, hrd, Or.inr hr⟩
  constructor
  · intro actors names hres h
    rw [hasPermission_eq_resolved p mode actors names hres]
    simp [entryHit, hd, key names h]
  · intro hany actors
    cases hres : resolveRoleNames actors with
    | none => exact hasPermission_eq_false_of_resolve_none p mode actors hres
    | some names =>
      rw [hasPermission_eq_resolved p mode actors names hres]
      simp [entryHit, hd, key names (Or.inl hany)]

/-- C3 witness: the intern is denied `Delete` by `pDenyInternDelete`. -/
theorem deny_entry_overrides_allow_witness :
    pDenyInternDelete.HasPermission .delete [Actor.name "intern"] = false :=
  (deny_entry_overrides_allow pDenyInternDelete .delete ["intern"] rfl).1
    [Actor.name "intern"] ["intern"] rfl
    (Or.inr ⟨"intern", by decide, by decide⟩)

/-- C4: for every pair of possibly-nil operands and every mode, `Concat`
produces, per map, the concatenation of the argument's entry followed by
the receiver's entry (so every rule of both operands survives, and a key
is present in the result exactly when present in an operand), and the
result's scope is the receiver's when the receiver is non-nil, else the
argument's when the argument is non-nil, else the `Global` default. -/
theorem concat_entry_concatenation_and_scope
    (a b : Option Permission) (mode : PermissionMode) :
    ((Permission.Concat a b).DeniedRoles.get mode).getD []
        = ((deniedOf b).get mode).getD [] ++ ((deniedOf a).get mode).getD []
    ∧ ((Permission.Concat a b).AllowedRoles.get mode).getD []
        = ((allowedOf b).get mode).getD [] ++ ((allowedOf a).get mode).getD []
    ∧ ((Permission.Concat a b).DeniedRoles.get mode).isSome
        = (((deniedOf b).get mode).isSome || ((deniedOf a).get mode).isSome)
    ∧ ((Permission.Concat a b).AllowedRoles.get mode).isSome
        = (((allowedOf b).get mode).isSome || ((allowedOf a).get mode).isSome)
    ∧ (∀ p, a = some p → (Permission.Concat a b).Role = p.Role)
    ∧ (a = none → ∀ q, b = some q → (Permission.Concat a b).Role = q.Role)
    ∧ (a = none → b = none → (Permission.Concat a b).Role = some Global) := by
  refine ⟨?_, ?_, ?_, ?_, ?_, ?_, ?_⟩
  · rw [concat_denied_get, concatEntry_getD]
  · rw [concat_allowed_get, concatEntry_getD]
  · rw [concat_denied_get, concatEntry_isSome]
  · rw [concat_allowed_get, concatEntry_isSome]
  · rintro p rfl; rfl
  · rintro rfl q rfl; rfl
  · rintro rfl rfl; rfl

/-- C4 witness: merging the deny-only policy (receiver) with the
allow-only policy (argument) concatenates the `Read` allow entries
(argument first) and attributes the receiver's scope. -/
theorem concat_entry_concatenation_and_scope_witness :
    ((Permission.Concat (some pDenyInternDelete) (some pAllowViewerRead)).AllowedRoles.get
        .read).getD []
      = ["viewer"] ++ []
    ∧ (Permission.Concat (some pDenyInternDelete) (some pAllowViewerRead)).Role
      = pDenyInternDelete.Role :=
  ⟨(concat_entry_concatenation_and_scope (some pDenyInternDelete)
      (some pAllowViewerRead) .read).2.1,
   (concat_entry_concatenation_and_scope (some pDenyInternDelete)
      (some pAllowViewerRead) .read).2.2.2.2.1 pDenyInternDelete rfl⟩

/-- C5: `Allow(CRUD, roles)` equals the chained sequence
`Allow(Create); Allow(Update); Allow(Read); Allow(Delete)` with the same
roles, and `Deny(CRUD, roles)` likewise; and no builder call ever touches
the `crud` key of either map — `Allow` leaves the allowed map's `crud`
entry and the whole denied map unchanged, `Deny` symmetrically. -/
theorem allow_deny_crud_expansion (p : Permission) (roles : List RoleName) :
    p.Allow .crud roles
        = (((p.Allow .create roles).bind (fun q => q.Allow .update roles)).bind
            (fun q => q.Allow .read roles)).bind (fun q => q.Allow .delete roles)
    ∧ p.Deny .crud roles
        = (((p.Deny .create roles).bind (fun q => q.Deny .update roles)).bind
            (fun q => q.Deny .read roles)).bind (fun q => q.Deny .delete roles)
    ∧ (∀ mode q, p.Allow mode roles = some q →
        q.AllowedRoles.get .crud = p.AllowedRoles.get .crud
        ∧ q.DeniedRoles = p.DeniedRoles)
    ∧ (∀ mode q, p.Deny mode roles = some q →
        q.DeniedRoles.get .crud = p.DeniedRoles.get .crud
        ∧ q.AllowedRoles = p.AllowedRoles) := by
  refine ⟨rfl, rfl, ?_, ?_⟩
  · intro mode q h
    cases hA : p.AllowedRoles with
    | nil => rw [Permission.Allow_eq_none_of_nil p hA mode roles] at h; cases h
    | mk m =>
      cases mode <;>
        simp [Permission.Allow, Permission.allowOne, GoMap.appendSet, hA] at h <;>
        subst h <;>
        simp [GoMap.get, RoleMap.get, RoleMap.set, hA]
  · intro mode q h
    cases hD : p.DeniedRoles with
    | nil => rw [Permission.Deny_eq_none_of_nil p hD mode roles] at h; cases h
    | mk m =>
      cases mode <;>
        simp [Permission.Deny, Permission.denyOne, GoMap.appendSet, hD] at h <;>
        subst h <;>
        simp [GoMap.get, RoleMap.get, RoleMap.set, hD]

/-- C5 witness: one concrete `Allow(Create)` call on the freshly
initialized policy leaves the `crud` allow entry and the denied map
untouched. -/
theorem allow_deny_crud_expansion_witness :
    qAllowEditorCreate.AllowedRoles.get .crud = pEmptyInit.AllowedRoles.get .crud
    ∧ qAllowEditorCreate.DeniedRoles = pEmptyInit.DeniedRoles :=
  (allow_deny_crud_expansion pEmptyInit ["editor"]).2.2.1 .create
    qAllowEditorCreate (by decide)

/-- C6: merge is order-independent in effect on membership: a role name
belongs to `Concat(P,Q)`'s entry for a mode exactly when it belongs to
`Concat(Q,P)`'s entry for that mode, in the allowed map and in the denied
map alike. -/
theorem concat_membership_symmetric
    (a b : Option Permission) (mode : PermissionMode) (r : RoleName) :
    (r ∈ ((Permission.Concat a b).AllowedRoles.get mode).getD []
      ↔ r ∈ ((Permission.Concat b a).AllowedRoles.get mode).getD [])
    ∧ (r ∈ ((Permission.Concat a b).DeniedRoles.get mode).getD []
      ↔ r ∈ ((Permission.Concat b a).DeniedRoles.get mode).getD []) := by
  constructor
  · rw [concat_allowed_get a b mode, concat_allowed_get b a mode,
      concatEntry_getD, concatEntry_getD]
    simp only [List.mem_append]
    exact Or.comm
  · rw [concat_denied_get a b mode, concat_denied_get b a mode,
      concatEntry_getD, concatEntry_getD]
    simp only [List.mem_append]
    exact Or.comm

/-- C7: merging with a nil operand on either side passes the non-nil
side's entries through unchanged, per map and per mode, and the result of
any `Concat` is backed by freshly initialized (non-nil) maps. -/
theorem concat_nil_identity_and_fresh (q : Permission) (mode : PermissionMode) :
    (Permission.Concat (some q) none).AllowedRoles.get mode = q.AllowedRoles.get mode
    ∧ (Permission.Concat (some q) none).DeniedRoles.get mode = q.DeniedRoles.get mode
    ∧ (Permission.Concat none (some q)).AllowedRoles.get mode = q.AllowedRoles.get mode
    ∧ (Permission.Concat none (some q)).DeniedRoles.get mode = q.DeniedRoles.get mode
    ∧ (∀ a b : Option Permission,
        (∃ rmA, (Permission.Concat a b).AllowedRoles = GoMap.mk rmA)
        ∧ (∃ rmD, (Permission.Concat a b).DeniedRoles = GoMap.mk rmD)) := by
  refine ⟨?_, ?_, ?_, ?_, fun a b => ⟨⟨_, rfl⟩, ⟨_, rfl⟩⟩⟩
  · rw [concat_allowed_get]
    exact concatEntry_none_acc (q.AllowedRoles.get mode)
  · rw [concat_denied_get]
    exact concatEntry_none_acc (q.DeniedRoles.get mode)
  · rw [concat_allowed_get]
    exact concatEntry_none_acc (q.AllowedRoles.get mode)
  · rw [concat_denied_get]
    exact concatEntry_none_acc (q.DeniedRoles.get mode)

/-- C8: an actor value of unrecognized shape anywhere in the variadic
list makes `HasPermission` return false, whatever the policy's maps and
the other actors are — malformed actor input fails closed. -/
theorem invalid_actor_fails_closed (p : Permission) (mode : PermissionMode)
    (actors : List Actor) (h : Actor.other ∈ actors) :
    p.HasPermission mode actors = false :=
  hasPermission_eq_false_of_resolve_none p mode actors
    (resolveRoleNames_eq_none_of_mem_other actors h)

/-- C8 witness: even the unconfigured default-allow policy denies a list
containing a malformed actor alongside a legitimate one. -/
theorem invalid_actor_fails_closed_witness :
    pEmptyInit.HasPermission .read [Actor.name "admin", Actor.other] = false :=
  invalid_actor_fails_closed pEmptyInit .read [Actor.name "admin", Actor.other]
    (by decide)

/-- C9: the resource wrapper permits every mode on a nil resource pointer
or a resource without a policy, and otherwise returns exactly the
underlying policy decision on the context's role list passed as plain
role-name actors. -/
theorem resource_hasPermission_wrapper (mode : PermissionMode) (context : Context) :
    Resource.HasPermission none mode context = true
    ∧ (∀ r : Resource, r.Permission = none →
        Resource.HasPermission (some r) mode context = true)
    ∧ (∀ r permission, r.Permission = some permission →
        Resource.HasPermission (some r) mode context
          = permission.HasPermission mode (context.Roles.map Actor.name)) := by
  refine ⟨rfl, ?_, ?_⟩
  · intro r h
    simp [Resource.HasPermission, h]
  · intro r permission h
    simp [Resource.HasPermission, h]

/-- C9 witness: the wrapper on the viewer-protected resource delegates to
the policy's own decision. -/
theorem resource_hasPermission_wrapper_witness :
    Resource.HasPermission (some resViewer) .read { Roles := ["viewer"] }
      = pAllowViewerRead.HasPermission .read (["viewer"].map Actor.name) :=
  (resource_hasPermission_wrapper .read { Roles := ["viewer"] }).2.2
    resViewer pAllowViewerRead rfl

/-- C10: `Allow` (resp. `Deny`) completes without a runtime fault exactly
when the policy's `AllowedRoles` (resp. `DeniedRoles`) map is initialized
— on a zero-value policy with nil maps the write faults; every policy
produced by `Concat` has both maps initialized, so builder calls on it
always succeed; and on success at a concrete mode the update is applied:
the entry becomes the old entry (or fresh empty list) with the roles
appended. -/
theorem allow_deny_require_initialized_maps
    (p : Permission) (mode : PermissionMode) (roles : List RoleName)
    (a b : Option Permission) :
    ((p.Allow mode roles).isSome = true ↔ ∃ rm, p.AllowedRoles = GoMap.mk rm)
    ∧ ((p.Deny mode roles).isSome = true ↔ ∃ rm, p.DeniedRoles = GoMap.mk rm)
    ∧ ((Permission.Concat a b).Allow mode roles).isSome = true
    ∧ ((Permission.Concat a b).Deny mode roles).isSome = true
    ∧ (∀ rm q, p.AllowedRoles = GoMap.mk rm → mode ≠ .crud →
        p.Allow mode roles = some q →
        q.AllowedRoles.get mode = some ((rm.get mode).getD [] ++ roles))
    ∧ (∀ rm q, p.DeniedRoles = GoMap.mk rm → mode ≠ .crud →
        p.Deny mode roles = some q →
        q.DeniedRoles.get mode = some ((rm.get mode).getD [] ++ roles)) := by
  refine ⟨?_, ?_, ?_, ?_, ?_, ?_⟩
  · constructor
    · intro h
      cases hA : p.AllowedRoles with
      | nil => rw [Permission.Allow_eq_none_of_nil p hA mode roles] at h; cases h
      | mk rm => exact ⟨rm, rfl⟩
    · rintro ⟨rm, hrm⟩
      exact Permission.Allow_isSome_of_mk p rm hrm mode roles
  · constructor
    · intro h
      cases hD : p.DeniedRoles with
      | nil => rw [Permission.Deny_eq_none_of_nil p hD mode roles] at h; cases h
      | mk rm => exact ⟨rm, rfl⟩
    · rintro ⟨rm, hrm⟩
      exact Permission.Deny_isSome_of_mk p rm hrm mode roles
  · exact Permission.Allow_isSome_of_mk (Permission.Concat a b) _ rfl mode roles
  · exact Permission.Deny_isSome_of_mk (Permission.Concat a b) _ rfl mode roles
  · intro rm q hrm hne h
    cases mode with
    | crud => exact absurd rfl hne
    | create =>
      simp [Permission.Allow, Permission.allowOne, GoMap.appendSet, hrm] at h
      subst h
      simp [GoMap.get, RoleMap.get_set_self]
    | read =>
      simp [Permission.Allow, Permission.allowOne, GoMap.appendSet, hrm] at h
      subst h
      simp [GoMap.get, RoleMap.get_set_self]
    | update =>
      simp [Permission.Allow, Permission.allowOne, GoMap.appendSet, hrm] at h
      subst h
      simp [GoMap.get, RoleMap.get_set_self]
    | delete =>
      simp [Permission.Allow, Permission.allowOne, GoMap.appendSet, hrm] at h
      subst h
      simp [GoMap.get, RoleMap.get_set_self]
  · intro rm q hrm hne h
    cases mode with
    | crud => exact absurd rfl hne
    | create =>
      simp [Permission.Deny, Permission.denyOne, GoMap.appendSet, hrm] at h
      subst h
      simp [GoMap.get, RoleMap.get_set_self]
    | read =>
      simp [Permission.Deny, Permission.denyOne, GoMap.appendSet, hrm] at h
      subst h
      simp [GoMap.get, RoleMap.get_set_self]
    | update =>
      simp [Permission.Deny, Permission.denyOne, GoMap.appendSet, hrm] at h
      subst h
      simp [GoMap.get, RoleMap.get_set_self]
    | delete =>
      simp [Permission.Deny, Permission.denyOne, GoMap.appendSet, hrm] at h
      subst h
      simp [GoMap.get, RoleMap.get_set_self]

/-- C10 witness: on the zero-value policy both maps are nil and `Allow`
faults, while the freshly initialized policy accepts the same call. -/
theorem allow_deny_require_initialized_maps_witness :
    (pEmptyInit.Allow .read ["editor"]).isSome = true
    ∧ ((Permission.mk none GoMap.nil GoMap.nil).Allow .read ["editor"]).isSome = false :=
  ⟨(allow_deny_require_initialized_maps pEmptyInit .read ["editor"] none none).1.mpr
      ⟨RoleMap.empty, rfl⟩,
   by
    cases h : ((Permission.mk none GoMap.nil GoMap.nil).Allow .read ["editor"]).isSome with
    | false => rfl
    | true =>
      obtain ⟨rm, hrm⟩ :=
        (allow_deny_require_initialized_maps (Permission.mk none GoMap.nil GoMap.nil)
          .read ["editor"] none none).1.mp h
      cases hrm⟩
